import Mathlib

/-!
# Shallow embedding of the Party Planner backend

This file embeds the data model and the route handlers of the
`party_backend` FastAPI application (files `models.py`, `schemas.py`,
`deps.py`, `main.py`, `database.py`) as executable Lean definitions,
and proves properties about them.

The database is modelled as lists of rows (one list per table) together
with the next auto-increment primary key for each table.  SQLAlchemy's
`query(...).filter(...).first()` is modelled by `List.find?`, in-place
mutation of a fetched row by replacement of the first matching list
element, and `db.delete` with the declared cascades by list filtering.
Each handler takes the database and the resolved caller and returns the
HTTP outcome (`Except HTTPException α`) together with the database state
after the request; a handler that raises before writing returns the
input database unchanged, exactly as the aborted request leaves it.
-/

/-- Values of the SQL `DateTime` column type; opaque to all handlers. -/
abbrev PDateTime := Int

/-- `HTTPException(status_code=..., detail=...)` as raised by the handlers. -/
structure HTTPException where
  status_code : Nat
  detail : String
deriving DecidableEq, Repr

/-- Row of the `users` table (`models.User`). -/
structure User where
  id : Nat
  username : String
  email : String
  hashed_password : String
deriving DecidableEq, Repr

/-- Row of the `events` table (`models.Event`); `description` is nullable. -/
structure Event where
  id : Nat
  title : String
  description : Option String
  date : PDateTime
  location : String
  owner_id : Nat
deriving DecidableEq, Repr

/-- Row of the `guests` table (`models.Guest`). -/
structure Guest where
  id : Nat
  event_id : Nat
  name : String
  email : String
  invited_by_user_id : Nat
  responded : Bool
deriving DecidableEq, Repr

/-- Row of the `rsvps` table (`models.RSVP`). -/
structure RSVP where
  id : Nat
  event_id : Nat
  user_id : Nat
  status : String
deriving DecidableEq, Repr

/-- The relational state: the four tables plus the next auto-increment
primary key of each table. -/
structure Db where
  users : List User
  events : List Event
  guests : List Guest
  rsvps : List RSVP
  next_user_id : Nat
  next_event_id : Nat
  next_guest_id : Nat
  next_rsvp_id : Nat
deriving DecidableEq, Repr

/-- Replace the first element satisfying `p` by its image under `f`:
the list-state counterpart of mutating the row returned by `.first()`
and committing. -/
def replaceFirst (p : α → Bool) (f : α → α) : List α → List α
  | [] => []
  | x :: xs => if p x then f x :: xs else x :: replaceFirst p f xs

/-! ## Token issuer / verifier (`deps.py`) -/

/-- `SECRET_KEY = os.getenv('JWT_SECRET_KEY', 'temporary_secret')`; the
process-wide signing key (default value, `JWT_SECRET_KEY` unset). -/
def SECRET_KEY : String := "temporary_secret"

/-- A JSON value that can sit in the `sub` claim of the payload dict:
`login` stores the integer `user.id` there. -/
inductive JValue where
  | jint : Nat → JValue
  | jstr : String → JValue
deriving DecidableEq, Repr

/-- The JWT payload dict; the only key this application ever puts in it
is `sub`. -/
structure Payload where
  sub : Option JValue
deriving DecidableEq, Repr

/-- A signed token: the encoded payload plus the key it was signed with.
Signature verification succeeds exactly when the decoding key equals the
signing key. -/
structure Token where
  payload : Payload
  key : String
deriving DecidableEq, Repr

/-- `create_access_token(data)`: signs the payload with `SECRET_KEY`
(`jwt.encode(to_encode, SECRET_KEY, algorithm=ALGORITHM)`); no expiry is
added. -/
def create_access_token (data : Payload) : Token :=
  ⟨data, SECRET_KEY⟩

/-- Modelled from the python-jose library (`jwt.decode(token, key,
algorithms=[ALGORITHM])`, not repository code): returns the payload when
the signature verifies under `key`, and raises `JWTError` (here `none`)
when the signature is invalid or registered-claim validation fails.  The
default options include `verify_sub`, whose validator raises
`JWTClaimsError("Subject must be a string.")` — a `JWTError` subclass —
whenever a present `sub` claim is not a string. -/
def jwt_decode (token : Token) (key : String) : Option Payload :=
  if token.key == key then
    match token.payload.sub with
    | some (JValue.jint _) => none
    | _ => some token.payload
  else
    none

/-- The `credentials_exception` raised by `get_current_user`. -/
def credentials_exception : HTTPException :=
  ⟨401, "Could not validate credentials"⟩

/-- SQL comparison `models.User.id == user_id` where `user_id` is the
decoded `sub` value: an integer column never equals a string value. -/
def subEqId : JValue → Nat → Bool
  | JValue.jint n, i => n == i
  | JValue.jstr _, _ => false

/-- `get_current_user`: decode the bearer token, read `payload.get("sub")`,
fail 401 if decoding failed or the claim is absent, else load the user
row with that id, failing 401 when no such user exists. -/
def get_current_user (db : Db) (token : Token) : Except HTTPException User :=
  match jwt_decode token SECRET_KEY with
  | none => Except.error credentials_exception
  | some payload =>
    match payload.sub with
    | none => Except.error credentials_exception
    | some v =>
      match db.users.find? (fun u => subEqId v u.id) with
      | none => Except.error credentials_exception
      | some u => Except.ok u

/-! ## Password helpers (`deps.py`)

`hash_password` is `hashlib.sha256(password.encode()).hexdigest()`; the
digest function itself is delegated to the standard library, so the
handlers below take it as an explicit parameter `hashPw` and every
theorem holds for an arbitrary digest function. -/

/-- `verify_password(plain, hashed) = hash_password(plain) == hashed`. -/
def verify_password (hashPw : String → String) (plain hashed : String) : Bool :=
  hashPw plain == hashed

/-! ## Auth routes (`main.py`) -/

/-- Body of `POST /auth/signup` (`schemas.UserCreate`). -/
structure UserCreate where
  username : String
  email : String
  password : String
deriving DecidableEq, Repr

/-- Response model of signup (`schemas.UserOut`): id, username, email —
 no password field exists in this schema. -/
structure UserOut where
  id : Nat
  username : String
  email : String
deriving DecidableEq, Repr

/-- `signup`: reject with 400 when a user with the same username or the
same email exists, else insert a user storing `hash_password(password)`
and return its `UserOut` projection. -/
def signup (hashPw : String → String) (db : Db) (u : UserCreate) :
    Except HTTPException UserOut × Db :=
  match db.users.find? (fun x => x.username == u.username || x.email == u.email) with
  | some _ => (Except.error ⟨400, "Username or Email already exists."⟩, db)
  | none =>
    let user : User := ⟨db.next_user_id, u.username, u.email, hashPw u.password⟩
    (Except.ok ⟨user.id, user.username, user.email⟩,
      { db with users := db.users ++ [user], next_user_id := db.next_user_id + 1 })

/-- `login`: load the user by username, check the password, and return a
token whose payload is `{"sub": user.id}` — the integer id. -/
def login (hashPw : String → String) (db : Db) (username password : String) :
    Except HTTPException Token :=
  match db.users.find? (fun u => u.username == username) with
  | none => Except.error ⟨401, "Incorrect username or password"⟩
  | some user =>
    if verify_password hashPw password user.hashed_password then
      Except.ok (create_access_token ⟨some (JValue.jint user.id)⟩)
    else
      Except.error ⟨401, "Incorrect username or password"⟩

/-! ## Event routes (`main.py`) -/

/-- The 404 raised by all ownership-scoped event lookups. -/
def eventNotFound : HTTPException := ⟨404, "Event not found"⟩

/-- The ownership-scoped filter
`models.Event.id == event_id, models.Event.owner_id == user.id`. -/
def ownedEvent (event_id : Nat) (user : User) (e : Event) : Bool :=
  e.id == event_id && e.owner_id == user.id

/-- `GET /events/{event_id}`: ownership-scoped lookup, 404 when no row
matches; reads only. -/
def get_event (db : Db) (user : User) (event_id : Nat) :
    Except HTTPException Event × Db :=
  match db.events.find? (ownedEvent event_id user) with
  | none => (Except.error eventNotFound, db)
  | some e => (Except.ok e, db)

/-- Body of `PUT /events/{event_id}` (`schemas.EventUpdate`): every field
optional; an absent field (`none` at the outer layer) is excluded by
`dict(exclude_unset=True)` and left untouched.  A present value carries
the column's type (`description` is a nullable column, so its present
value is itself optional); a present null for a non-nullable column
would be rejected by the database layer and is not modelled. -/
structure EventUpdate where
  title : Option String
  description : Option (Option String)
  date : Option PDateTime
  location : Option String
deriving DecidableEq, Repr

/-- `for field, value in event_update.dict(exclude_unset=True).items():
setattr(event, field, value)`. -/
def applyUpdate (upd : EventUpdate) (e : Event) : Event :=
  { e with
    title := upd.title.getD e.title
    description := upd.description.getD e.description
    date := upd.date.getD e.date
    location := upd.location.getD e.location }

/-- `PUT /events/{event_id}`: ownership-scoped lookup, 404 when no row
matches, else apply the partial update to the fetched row in place and
commit. -/
def update_event (db : Db) (user : User) (event_id : Nat) (upd : EventUpdate) :
    Except HTTPException Event × Db :=
  match db.events.find? (ownedEvent event_id user) with
  | none => (Except.error eventNotFound, db)
  | some e =>
    (Except.ok (applyUpdate upd e),
      { db with events := replaceFirst (ownedEvent event_id user) (applyUpdate upd) db.events })

/-- `DELETE /events/{event_id}`: ownership-scoped lookup, 404 when no row
matches, else delete the row; the declared cascades delete the guests
and RSVPs of that event. -/
def delete_event (db : Db) (user : User) (event_id : Nat) :
    Except HTTPException String × Db :=
  match db.events.find? (ownedEvent event_id user) with
  | none => (Except.error eventNotFound, db)
  | some e =>
    (Except.ok "Event deleted",
      { db with
        events := db.events.eraseP (fun x => x.id == e.id)
        guests := db.guests.filter (fun g => !(g.event_id == e.id))
        rsvps := db.rsvps.filter (fun r => !(r.event_id == e.id)) })

/-! ## Batch invite route (`main.py`) -/

/-- `email.split('@')[0]`: the prefix of the email before its first `'@'`
(the whole string when no `'@'` occurs), used as the default guest name. -/
def localPart (email : String) : String :=
  (email.toList.takeWhile (fun c => c != '@')).asString

/-- One step of the invite loop: look the email up among the rows that
were already persisted before the request began (`SessionLocal` is
created with `autoflush=False`, so the query never sees the `db.add`s
pending in this request), and stage a new guest when none is found. -/
def inviteStep (db : Db) (user : User) (event_id : Nat)
    (acc : List Guest × Nat) (email : String) : List Guest × Nat :=
  match db.guests.find? (fun g => g.event_id == event_id && g.email == email) with
  | some _ => acc
  | none =>
    (acc.1 ++ [⟨acc.2, event_id, localPart email, email, user.id, false⟩], acc.2 + 1)

/-- `POST /events/{event_id}/invite/`: ownership-scoped event lookup
(404 when no row matches), then for each email in order stage a guest
unless one already persisted for `(event_id, email)`; commit all staged
guests and return exactly the staged (newly created) ones. -/
def invite_guests (db : Db) (user : User) (event_id : Nat)
    (guest_emails : List String) : Except HTTPException (List Guest) × Db :=
  match db.events.find? (ownedEvent event_id user) with
  | none => (Except.error eventNotFound, db)
  | some _ =>
    let res := guest_emails.foldl (inviteStep db user event_id) ([], db.next_guest_id)
    (Except.ok res.1,
      { db with guests := db.guests ++ res.1, next_guest_id := res.2 })

/-! ## RSVP submit route (`main.py`) -/

/-- `POST /events/{event_id}/rsvp/`: load the event with no ownership
scoping (404 when absent); require the caller to be the owner or to
match a guest row by email (403 otherwise); then upsert the caller's
RSVP row for the event. -/
def rsvp_to_event (db : Db) (user : User) (event_id : Nat) (status : String) :
    Except HTTPException RSVP × Db :=
  match db.events.find? (fun e => e.id == event_id) with
  | none => (Except.error eventNotFound, db)
  | some event =>
    let guest := db.guests.find? (fun g => g.event_id == event_id && g.email == user.email)
    if guest.isNone && !(event.owner_id == user.id) then
      (Except.error ⟨403, "Must be invited or owner"⟩, db)
    else
      match db.rsvps.find? (fun r => r.event_id == event_id && r.user_id == user.id) with
      | none =>
        let r : RSVP := ⟨db.next_rsvp_id, event_id, user.id, status⟩
        (Except.ok r, { db with rsvps := db.rsvps ++ [r], next_rsvp_id := db.next_rsvp_id + 1 })
      | some r0 =>
        let rsvps := replaceFirst (fun r => r.event_id == event_id && r.user_id == user.id)
          (fun r => { r with status := status }) db.rsvps
        (Except.ok { r0 with status := status }, { db with rsvps := rsvps })

/-- Number of guest rows for an `(event_id, email)` pair. -/
def countGuests (db : Db) (event_id : Nat) (email : String) : Nat :=
  (db.guests.filter (fun g => g.event_id == event_id && g.email == email)).length

/-- Number of RSVP rows for an `(event_id, user_id)` pair. -/
def countRsvps (db : Db) (event_id user_id : Nat) : Nat :=
  (db.rsvps.filter (fun r => r.event_id == event_id && r.user_id == user_id)).length

/-- One request to the batch-invite route: the authenticated caller, the
path parameter, and the request body. -/
structure InviteCall where
  user : User
  event_id : Nat
  guest_emails : List String

/-- A sequence of batch-invite requests, each handled on the database
state the previous one left behind. -/
def runInvites (db : Db) (calls : List InviteCall) : Db :=
  calls.foldl (fun d c => (invite_guests d c.user c.event_id c.guest_emails).2) db

/-! ## Shared lemmas -/

/-- The ownership-scoped lookup finds nothing iff no event row has both
the requested id and the caller as owner. -/
theorem find?_ownedEvent_eq_none (l : List Event) (eid : Nat) (user : User) :
    l.find? (ownedEvent eid user) = none ↔
      ∀ e ∈ l, ¬(e.id = eid ∧ e.owner_id = user.id) := by
  rw [List.find?_eq_none]
  simp [ownedEvent]

/-- C1: the claim is false on the code: a token issued by `login` carries
the integer `user.id` as its `sub` claim, and `jwt.decode` rejects a
non-string `sub` claim with `JWTClaimsError` (a `JWTError`), so
`get_current_user` answers 401 for every login-issued token against any
database — the subject never decodes back to the user id. -/
theorem login_token_rejected_by_gate (hashPw : String → String) (db db2 : Db)
    (username password : String) (tok : Token)
    (h : login hashPw db username password = Except.ok tok) :
    get_current_user db2 tok = Except.error credentials_exception := by
  unfold login at h
  split at h
  · exact absurd h (by simp)
  · split at h
    · injection h with h
      subst h
      simp [get_current_user, create_access_token, jwt_decode]
    · exact absurd h (by simp)

/-- Witness for C1: a concrete one-user database where login succeeds and
the resulting token is nevertheless rejected by the authorization gate. -/
theorem login_token_rejected_by_gate_witness :
    get_current_user ⟨[⟨1, "alice", "alice@x.com", "secret1"⟩], [], [], [], 2, 1, 1, 1⟩
      ⟨⟨some (JValue.jint 1)⟩, "temporary_secret"⟩ = Except.error credentials_exception :=
  login_token_rejected_by_gate (fun s => s)
    ⟨[⟨1, "alice", "alice@x.com", "secret1"⟩], [], [], [], 2, 1, 1, 1⟩
    ⟨[⟨1, "alice", "alice@x.com", "secret1"⟩], [], [], [], 2, 1, 1, 1⟩
    "alice" "secret1" ⟨⟨some (JValue.jint 1)⟩, "temporary_secret"⟩ (by rfl)

/-- C3: signup fails with the 400 conflict error iff some existing user
has the requested username or the requested email; on a novel pair it
succeeds, the stored row's `hashed_password` is the digest of the
password (never the plaintext column value), and the returned `UserOut`
record consists of id, username and email only — the schema has no
password field. -/
theorem signup_conflict_iff (hashPw : String → String) (db : Db) (u : UserCreate) :
    ((signup hashPw db u).1 = Except.error ⟨400, "Username or Email already exists."⟩ ↔
      ∃ x ∈ db.users, x.username = u.username ∨ x.email = u.email)
    ∧ ((∀ x ∈ db.users, x.username ≠ u.username ∧ x.email ≠ u.email) →
        signup hashPw db u =
          (Except.ok ⟨db.next_user_id, u.username, u.email⟩,
            { db with
              users := db.users ++ [⟨db.next_user_id, u.username, u.email, hashPw u.password⟩]
              next_user_id := db.next_user_id + 1 })) := by
  cases hf : db.users.find? (fun x => x.username == u.username || x.email == u.email) with
  | none =>
    have hnone := List.find?_eq_none.mp hf
    refine ⟨⟨fun h => ?_, fun hex => ?_⟩, fun _ => ?_⟩
    · simp [signup, hf] at h
    · obtain ⟨x, hx, hor⟩ := hex
      have := hnone x hx
      simp only [Bool.or_eq_true, beq_iff_eq] at this
      tauto
    · simp [signup, hf]
  | some x =>
    have hpx := List.find?_some hf
    have hmem := List.mem_of_find?_eq_some hf
    simp only [Bool.or_eq_true, beq_iff_eq] at hpx
    refine ⟨⟨fun _ => ⟨x, hmem, hpx⟩, fun _ => ?_⟩, fun hall => ?_⟩
    · simp [signup, hf]
    · have := hall x hmem
      tauto

/-- Witness for C3: on a database holding only `alice`, signing up `bob`
succeeds and stores the digest of his password. -/
theorem signup_conflict_iff_witness :
    signup (fun s => String.append s "#sha") ⟨[⟨1, "alice", "alice@x.com", "h1"⟩], [], [], [], 2, 1, 1, 1⟩
      ⟨"bob", "bob@x.com", "secret9"⟩ =
      (Except.ok ⟨2, "bob", "bob@x.com"⟩,
        ⟨[⟨1, "alice", "alice@x.com", "h1"⟩, ⟨2, "bob", "bob@x.com", "secret9#sha"⟩],
          [], [], [], 3, 1, 1, 1⟩) :=
  (signup_conflict_iff (fun s => String.append s "#sha")
    ⟨[⟨1, "alice", "alice@x.com", "h1"⟩], [], [], [], 2, 1, 1, 1⟩
    ⟨"bob", "bob@x.com", "secret9"⟩).2 (by decide)

/-- C2: under the primary-key invariant (event ids are unique), the get,
update and delete event operations answer the 404 not-found error and
leave the database unchanged both when the event exists with a different
owner and when no event has the requested id; each of them succeeds only
when an event row with the requested id is owned by the caller. -/
theorem event_ops_owner_scoped (db : Db) (user : User) (eid : Nat)
    (hnodup : (db.events.map Event.id).Nodup) :
    (((∃ E ∈ db.events, E.id = eid ∧ E.owner_id ≠ user.id) ∨ (∀ E ∈ db.events, E.id ≠ eid)) →
      get_event db user eid = (Except.error eventNotFound, db) ∧
      (∀ upd, update_event db user eid upd = (Except.error eventNotFound, db)) ∧
      delete_event db user eid = (Except.error eventNotFound, db))
    ∧ (∀ r db2, get_event db user eid = (Except.ok r, db2) →
        ∃ E ∈ db.events, E.id = eid ∧ E.owner_id = user.id)
    ∧ (∀ upd r db2, update_event db user eid upd = (Except.ok r, db2) →
        ∃ E ∈ db.events, E.id = eid ∧ E.owner_id = user.id)
    ∧ (∀ s db2, delete_event db user eid = (Except.ok s, db2) →
        ∃ E ∈ db.events, E.id = eid ∧ E.owner_id = user.id) := by
  constructor
  · intro h
    have hall : ∀ e ∈ db.events, ¬(e.id = eid ∧ e.owner_id = user.id) := by
      rcases h with ⟨E, hE, hid, hown⟩ | hmiss
      · intro e he hp
        have heq : e = E :=
          List.inj_on_of_nodup_map hnodup he hE (by rw [hp.1, hid])
        exact hown (heq ▸ hp.2)
      · intro e he hp
        exact hmiss e he hp.1
    have hfind : db.events.find? (ownedEvent eid user) = none :=
      (find?_ownedEvent_eq_none _ _ _).mpr hall
    exact ⟨by simp [get_event, hfind], fun upd => by simp [update_event, hfind],
      by simp [delete_event, hfind]⟩
  · refine ⟨fun r db2 h => ?_, fun upd r db2 h => ?_, fun s db2 h => ?_⟩
    all_goals
      cases hf : db.events.find? (ownedEvent eid user) with
      | none => simp [get_event, update_event, delete_event, hf] at h
      | some e =>
        have hpe := List.find?_some hf
        have hme := List.mem_of_find?_eq_some hf
        simp only [ownedEvent, Bool.and_eq_true, beq_iff_eq] at hpe
        exact ⟨e, hme, hpe⟩

/-- Witness for C2: a caller with id 2 gets 404 on the event with id 1
owned by user 1, with the database unchanged. -/
theorem event_ops_owner_scoped_witness :
    get_event ⟨[], [⟨1, "Party", none, 0, "Home", 1⟩], [], [], 1, 2, 1, 1⟩
      ⟨2, "bob", "bob@x.com", "h"⟩ 1 =
      (Except.error eventNotFound, ⟨[], [⟨1, "Party", none, 0, "Home", 1⟩], [], [], 1, 2, 1, 1⟩) :=
  ((event_ops_owner_scoped ⟨[], [⟨1, "Party", none, 0, "Home", 1⟩], [], [], 1, 2, 1, 1⟩
      ⟨2, "bob", "bob@x.com", "h"⟩ 1 (by decide)).1
    (Or.inl ⟨⟨1, "Party", none, 0, "Home", 1⟩, by decide, rfl, by decide⟩)).1

/-- A successful `find?` splits the list at the first match, with no
match before it; `replaceFirst` rewrites exactly that element. -/
theorem find?_decomp {α : Type} {p : α → Bool} {l : List α} {a : α} (h : l.find? p = some a) :
    ∃ l1 l2, l = l1 ++ a :: l2 ∧ (∀ x ∈ l1, ¬ p x) ∧
      ∀ f, replaceFirst p f l = l1 ++ f a :: l2 := by
  induction l with
  | nil => simp at h
  | cons x xs ih =>
    by_cases hx : p x
    · rw [List.find?_cons_of_pos _ hx] at h
      injection h with h
      subst h
      exact ⟨[], xs, rfl, by simp, fun f => by simp [replaceFirst, hx]⟩
    · rw [List.find?_cons_of_neg _ hx] at h
      obtain ⟨l1, l2, h1, h2, h3⟩ := ih h
      refine ⟨x :: l1, l2, by simp [h1], ?_, fun f => ?_⟩
      · intro y hy
        rcases List.mem_cons.mp hy with rfl | hy
        · exact hx
        · exact h2 y hy
      · simp only [replaceFirst, if_neg hx, h3 f, List.cons_append]

/-- When event ids are unique, a lookup whose matches all share one id
returns the given matching row. -/
theorem find?_unique_by_id {l : List Event} {E : Event} {p : Event → Bool}
    (hnodup : (l.map Event.id).Nodup) (hE : E ∈ l) (hpE : p E = true)
    (hid : ∀ e ∈ l, p e = true → e.id = E.id) : l.find? p = some E := by
  cases hf : l.find? p with
  | none =>
    rw [List.find?_eq_none] at hf
    exact absurd hpE (hf E hE)
  | some e =>
    have hpe := List.find?_some hf
    have hme := List.mem_of_find?_eq_some hf
    have heq : e = E := List.inj_on_of_nodup_map hnodup hme hE (by rw [hid e hme hpe])
    rw [heq]

/-- `replaceFirst` passes over a prefix containing no match. -/
theorem replaceFirst_append_left {α : Type} {p : α → Bool} {f : α → α} {l l' : List α}
    (h : ∀ x ∈ l, ¬ p x) :
    replaceFirst p f (l ++ l') = l ++ replaceFirst p f l' := by
  induction l with
  | nil => rfl
  | cons x xs ih =>
    have hx := h x (List.mem_cons_self x xs)
    simp only [List.cons_append, replaceFirst, if_neg hx, List.append_eq]
    exact congrArg (x :: ·) (ih (fun y hy => h y (List.mem_cons_of_mem x hy)))

/-- C6: for an existing event, submitting an RSVP fails with the 403
permission error and leaves the database unchanged (so no RSVP row is
created) whenever the caller is neither the owner nor matched by email
against a guest row of the event; a successful submit implies the caller
is the owner or such a guest row exists. -/
theorem rsvp_submit_authz (db : Db) (user : User) (eid : Nat) (st : String) (E : Event)
    (hnodup : (db.events.map Event.id).Nodup) (hE : E ∈ db.events) (hid : E.id = eid) :
    ((E.owner_id ≠ user.id ∧ ∀ g ∈ db.guests, ¬(g.event_id = eid ∧ g.email = user.email)) →
      rsvp_to_event db user eid st = (Except.error ⟨403, "Must be invited or owner"⟩, db))
    ∧ (∀ r db2, rsvp_to_event db user eid st = (Except.ok r, db2) →
        E.owner_id = user.id ∨ ∃ g ∈ db.guests, g.event_id = eid ∧ g.email = user.email) := by
  have hfindE : db.events.find? (fun e => e.id == eid) = some E :=
    find?_unique_by_id hnodup hE (by simp [hid]) (fun e he hpe => by
      simp only [beq_iff_eq] at hpe
      rw [hpe, hid])
  constructor
  · rintro ⟨hown, hng⟩
    have hgnone : db.guests.find? (fun g => g.event_id == eid && g.email == user.email) = none := by
      rw [List.find?_eq_none]
      intro g hg
      have := hng g hg
      simp only [Bool.and_eq_true, beq_iff_eq]
      tauto
    have hob : (E.owner_id == user.id) = false := by simp [hown]
    simp [rsvp_to_event, hfindE, hgnone, hob]
  · intro r db2 h
    by_cases ho : E.owner_id = user.id
    · exact Or.inl ho
    · refine Or.inr ?_
      cases hg : db.guests.find? (fun g => g.event_id == eid && g.email == user.email) with
      | none =>
        have hob : (E.owner_id == user.id) = false := by simp [ho]
        simp [rsvp_to_event, hfindE, hg, hob] at h
      | some g =>
        have hpg := List.find?_some hg
        have hmg := List.mem_of_find?_eq_some hg
        simp only [Bool.and_eq_true, beq_iff_eq] at hpg
        exact ⟨g, hmg, hpg⟩

/-- Witness for C6: `bob`, neither owner nor guest of event 1, receives
the 403 error and the database is unchanged. -/
theorem rsvp_submit_authz_witness :
    rsvp_to_event ⟨[⟨1, "alice", "alice@x.com", "h1"⟩, ⟨2, "bob", "bob@x.com", "h2"⟩],
        [⟨1, "Party", none, 0, "Home", 1⟩], [], [], 3, 2, 1, 1⟩
      ⟨2, "bob", "bob@x.com", "h2"⟩ 1 "accepted" =
      (Except.error ⟨403, "Must be invited or owner"⟩,
        ⟨[⟨1, "alice", "alice@x.com", "h1"⟩, ⟨2, "bob", "bob@x.com", "h2"⟩],
          [⟨1, "Party", none, 0, "Home", 1⟩], [], [], 3, 2, 1, 1⟩) :=
  (rsvp_submit_authz ⟨[⟨1, "alice", "alice@x.com", "h1"⟩, ⟨2, "bob", "bob@x.com", "h2"⟩],
        [⟨1, "Party", none, 0, "Home", 1⟩], [], [], 3, 2, 1, 1⟩
      ⟨2, "bob", "bob@x.com", "h2"⟩ 1 "accepted" ⟨1, "Party", none, 0, "Home", 1⟩
      (by decide) (by decide) rfl).1 ⟨by decide, by decide⟩

/-- C10: the RSVP submit route looks the event up without ownership
scoping and therefore distinguishes the failure cases the event routes
conflate: a missing event id yields the 404 not-found error, while an
existing event whose owner is not the caller and with no matching guest
yields the 403 permission error. -/
theorem rsvp_error_distinction (db : Db) (user : User) (eid : Nat) (st : String) :
    ((∀ e ∈ db.events, e.id ≠ eid) →
      rsvp_to_event db user eid st = (Except.error eventNotFound, db))
    ∧ (∀ E, (db.events.map Event.id).Nodup → E ∈ db.events → E.id = eid →
        E.owner_id ≠ user.id →
        (∀ g ∈ db.guests, ¬(g.event_id = eid ∧ g.email = user.email)) →
        rsvp_to_event db user eid st = (Except.error ⟨403, "Must be invited or owner"⟩, db)) := by
  constructor
  · intro hmiss
    have hfind : db.events.find? (fun e => e.id == eid) = none := by
      rw [List.find?_eq_none]
      intro e he
      simpa using hmiss e he
    simp [rsvp_to_event, hfind, eventNotFound]
  · intro E hnodup hE hid hown hng
    have hfindE : db.events.find? (fun e => e.id == eid) = some E :=
      find?_unique_by_id hnodup hE (by simp [hid]) (fun e he hpe => by
        simp only [beq_iff_eq] at hpe
        rw [hpe, hid])
    have hgnone : db.guests.find? (fun g => g.event_id == eid && g.email == user.email) = none := by
      rw [List.find?_eq_none]
      intro g hg
      have := hng g hg
      simp only [Bool.and_eq_true, beq_iff_eq]
      tauto
    have hob : (E.owner_id == user.id) = false := by simp [hown]
    simp [rsvp_to_event, hfindE, hgnone, hob]

/-- Witness for C10: submitting an RSVP for the nonexistent event id 7
yields 404, not 403. -/
theorem rsvp_error_distinction_witness :
    rsvp_to_event ⟨[⟨1, "alice", "alice@x.com", "h1"⟩], [], [], [], 2, 1, 1, 1⟩
      ⟨1, "alice", "alice@x.com", "h1"⟩ 7 "accepted" =
      (Except.error eventNotFound,
        ⟨[⟨1, "alice", "alice@x.com", "h1"⟩], [], [], [], 2, 1, 1, 1⟩) :=
  (rsvp_error_distinction ⟨[⟨1, "alice", "alice@x.com", "h1"⟩], [], [], [], 2, 1, 1, 1⟩
      ⟨1, "alice", "alice@x.com", "h1"⟩ 7 "accepted").1 (by decide)

/-- C7: under the at-most-one-row invariant for `(event, user)`, an
authorized caller submitting twice with statuses `s1` then `s2` gets two
successful responses, and afterwards exactly one RSVP row exists for the
pair, bearing the same row id as after the first submit and the latest
status `s2`. -/
theorem rsvp_upsert (db : Db) (user : User) (eid : Nat) (s1 s2 : String) (E : Event)
    (hnodup : (db.events.map Event.id).Nodup) (hE : E ∈ db.events) (hid : E.id = eid)
    (hauth : E.owner_id = user.id ∨ ∃ g ∈ db.guests, g.event_id = eid ∧ g.email = user.email)
    (hcount : countRsvps db eid user.id ≤ 1) :
    ∃ r1 r2 db1 db2,
      rsvp_to_event db user eid s1 = (Except.ok r1, db1) ∧
      rsvp_to_event db1 user eid s2 = (Except.ok r2, db2) ∧
      db2.rsvps.filter (fun r => r.event_id == eid && r.user_id == user.id) = [r2] ∧
      r2.id = r1.id ∧ r2.status = s2 ∧ r2.event_id = eid ∧ r2.user_id = user.id := by
  have hfindE : db.events.find? (fun e => e.id == eid) = some E :=
    find?_unique_by_id hnodup hE (by simp [hid]) (fun e he hpe => by
      simp only [beq_iff_eq] at hpe
      rw [hpe, hid])
  have hguard : ((db.guests.find? (fun g => g.event_id == eid && g.email == user.email)).isNone
      && !(E.owner_id == user.id)) = false := by
    rcases hauth with ho | ⟨g, hg, h1, h2⟩
    · simp [ho]
    · have hs : (db.guests.find? (fun g => g.event_id == eid && g.email == user.email)).isSome :=
        List.find?_isSome.mpr ⟨g, hg, by simp [h1, h2]⟩
      cases hq : db.guests.find? (fun g => g.event_id == eid && g.email == user.email) with
      | none => rw [hq] at hs; simp at hs
      | some g2 => simp [hq]
  cases hr : db.rsvps.find? (fun r => r.event_id == eid && r.user_id == user.id) with
  | none =>
    have hallnot := List.find?_eq_none.mp hr
    have e1 : rsvp_to_event db user eid s1 =
        (Except.ok ⟨db.next_rsvp_id, eid, user.id, s1⟩,
          { db with
            rsvps := db.rsvps ++ [⟨db.next_rsvp_id, eid, user.id, s1⟩]
            next_rsvp_id := db.next_rsvp_id + 1 }) := by
      simp [rsvp_to_event, hfindE, hguard, hr]
    have hfind1 : (db.rsvps ++ [(⟨db.next_rsvp_id, eid, user.id, s1⟩ : RSVP)]).find?
        (fun r => r.event_id == eid && r.user_id == user.id) =
        some ⟨db.next_rsvp_id, eid, user.id, s1⟩ := by
      rw [List.find?_append, hr]
      simp
    have hrep1 : replaceFirst (fun r => r.event_id == eid && r.user_id == user.id)
        (fun r => { r with status := s2 }) (db.rsvps ++ [⟨db.next_rsvp_id, eid, user.id, s1⟩]) =
        db.rsvps ++ [⟨db.next_rsvp_id, eid, user.id, s2⟩] := by
      rw [replaceFirst_append_left hallnot]
      simp [replaceFirst]
    have e2 : rsvp_to_event
        { db with
          rsvps := db.rsvps ++ [⟨db.next_rsvp_id, eid, user.id, s1⟩]
          next_rsvp_id := db.next_rsvp_id + 1 } user eid s2 =
        (Except.ok ⟨db.next_rsvp_id, eid, user.id, s2⟩,
          { db with
            rsvps := db.rsvps ++ [⟨db.next_rsvp_id, eid, user.id, s2⟩]
            next_rsvp_id := db.next_rsvp_id + 1 }) := by
      simp only [rsvp_to_event, hfindE, hguard, Bool.false_eq_true, if_false, hfind1, hrep1]
    have f2 : (db.rsvps ++ [(⟨db.next_rsvp_id, eid, user.id, s2⟩ : RSVP)]).filter
        (fun r => r.event_id == eid && r.user_id == user.id) =
        [⟨db.next_rsvp_id, eid, user.id, s2⟩] := by
      rw [List.filter_append, List.filter_eq_nil_iff.mpr hallnot]
      simp
    exact ⟨_, _, _, _, e1, e2, f2, rfl, rfl, rfl, rfl⟩
  | some r0 =>
    obtain ⟨l1, l2, hsplit, hl1, hrep⟩ := find?_decomp hr
    have hpr0 := List.find?_some hr
    have hl2 : ∀ x ∈ l2, ¬ (x.event_id == eid && x.user_id == user.id) = true := by
      have hfl : List.filter (fun r => r.event_id == eid && r.user_id == user.id) (r0 :: l2) =
          r0 :: List.filter (fun r => r.event_id == eid && r.user_id == user.id) l2 :=
        List.filter_cons_of_pos hpr0
      have hlen : countRsvps db eid user.id =
          (l1.filter (fun r => r.event_id == eid && r.user_id == user.id)).length + 1 +
          (l2.filter (fun r => r.event_id == eid && r.user_id == user.id)).length := by
        rw [countRsvps, hsplit, List.filter_append, hfl]
        simp [List.length_append]
        omega
      rw [hlen] at hcount
      have hz : (l2.filter (fun r => r.event_id == eid && r.user_id == user.id)).length = 0 := by
        omega
      exact List.filter_eq_nil_iff.mp (List.length_eq_zero.mp hz)
    have hp1 : ((fun r : RSVP => r.event_id == eid && r.user_id == user.id)
        { r0 with status := s1 }) = true := by simpa using hpr0
    have e1 : rsvp_to_event db user eid s1 =
        (Except.ok { r0 with status := s1 },
          { db with rsvps := l1 ++ { r0 with status := s1 } :: l2 }) := by
      simp only [rsvp_to_event, hfindE, hguard, Bool.false_eq_true, if_false, hr,
        hrep (fun r => { r with status := s1 })]
    have hfind1 : (l1 ++ { r0 with status := s1 } :: l2).find?
        (fun r => r.event_id == eid && r.user_id == user.id) = some { r0 with status := s1 } := by
      rw [List.find?_append, List.find?_eq_none.mpr hl1, Option.none_or]
      exact List.find?_cons_of_pos _ hp1
    have hrep2 : replaceFirst (fun r => r.event_id == eid && r.user_id == user.id)
        (fun r => { r with status := s2 }) (l1 ++ { r0 with status := s1 } :: l2) =
        l1 ++ { r0 with status := s2 } :: l2 := by
      rw [replaceFirst_append_left hl1]
      simp only [replaceFirst, if_pos hp1]
    have e2 : rsvp_to_event { db with rsvps := l1 ++ { r0 with status := s1 } :: l2 } user eid s2 =
        (Except.ok { r0 with status := s2 },
          { db with rsvps := l1 ++ { r0 with status := s2 } :: l2 }) := by
      simp only [rsvp_to_event, hfindE, hguard, Bool.false_eq_true, if_false, hfind1, hrep2]
    have f2 : (l1 ++ ({ r0 with status := s2 } : RSVP) :: l2).filter
        (fun r => r.event_id == eid && r.user_id == user.id) = [{ r0 with status := s2 }] := by
      have hp2b : ((({ r0 with status := s2 } : RSVP).event_id == eid) &&
          (({ r0 with status := s2 } : RSVP).user_id == user.id)) = true := by
        simpa using hpr0
      simp only [List.filter_append, List.filter_eq_nil_iff.mpr hl1, List.filter_cons,
        hp2b, if_true, List.filter_eq_nil_iff.mpr hl2, List.nil_append]
    have hpe := (Bool.and_eq_true _ _).mp hpr0
    exact ⟨_, _, _, _, e1, e2, f2, rfl, rfl, by simpa using hpe.1, by simpa using hpe.2⟩

/-- Witness for C7: owner `alice` RSVPs "accepted" then "declined" to her
event; one row remains, same id, status "declined". -/
theorem rsvp_upsert_witness :
    ∃ r1 r2 db1 db2,
      rsvp_to_event ⟨[⟨1, "alice", "alice@x.com", "h1"⟩], [⟨1, "Party", none, 0, "Home", 1⟩],
          [], [], 2, 2, 1, 1⟩ ⟨1, "alice", "alice@x.com", "h1"⟩ 1 "accepted" =
        (Except.ok r1, db1) ∧
      rsvp_to_event db1 ⟨1, "alice", "alice@x.com", "h1"⟩ 1 "declined" = (Except.ok r2, db2) ∧
      db2.rsvps.filter (fun r => r.event_id == 1 &&
        r.user_id == (⟨1, "alice", "alice@x.com", "h1"⟩ : User).id) = [r2] ∧
      r2.id = r1.id ∧ r2.status = "declined" ∧ r2.event_id = 1 ∧
      r2.user_id = (⟨1, "alice", "alice@x.com", "h1"⟩ : User).id :=
  rsvp_upsert ⟨[⟨1, "alice", "alice@x.com", "h1"⟩], [⟨1, "Party", none, 0, "Home", 1⟩],
      [], [], 2, 2, 1, 1⟩ ⟨1, "alice", "alice@x.com", "h1"⟩ 1 "accepted" "declined"
    ⟨1, "Party", none, 0, "Home", 1⟩ (by decide) (by decide) rfl (Or.inl rfl) (by decide)

/-- C8: updating an owned event succeeds and modifies exactly the fields
present in the request: each absent field, as well as `id` and
`owner_id`, keeps its prior value, each present field takes the supplied
value, all other tables and counters are untouched, and the events table
changes only at the updated row's position. -/
theorem update_event_partial_frame (db : Db) (user : User) (eid : Nat) (upd : EventUpdate)
    (E : Event) (hnodup : (db.events.map Event.id).Nodup)
    (hE : E ∈ db.events) (hid : E.id = eid) (hown : E.owner_id = user.id) :
    ∃ e2 db2, update_event db user eid upd = (Except.ok e2, db2) ∧
      e2 = applyUpdate upd E ∧
      e2.id = E.id ∧ e2.owner_id = E.owner_id ∧
      (upd.title = none → e2.title = E.title) ∧
      (∀ t, upd.title = some t → e2.title = t) ∧
      (upd.description = none → e2.description = E.description) ∧
      (∀ d, upd.description = some d → e2.description = d) ∧
      (upd.date = none → e2.date = E.date) ∧
      (∀ d, upd.date = some d → e2.date = d) ∧
      (upd.location = none → e2.location = E.location) ∧
      (∀ v, upd.location = some v → e2.location = v) ∧
      db2.users = db.users ∧ db2.guests = db.guests ∧ db2.rsvps = db.rsvps ∧
      db2.next_user_id = db.next_user_id ∧ db2.next_event_id = db.next_event_id ∧
      db2.next_guest_id = db.next_guest_id ∧ db2.next_rsvp_id = db.next_rsvp_id ∧
      ∃ l1 l2, db.events = l1 ++ E :: l2 ∧ db2.events = l1 ++ e2 :: l2 := by
  have hfind : db.events.find? (ownedEvent eid user) = some E :=
    find?_unique_by_id hnodup hE (by simp [ownedEvent, hid, hown]) (fun e he hpe => by
      simp only [ownedEvent, Bool.and_eq_true, beq_iff_eq] at hpe
      rw [hpe.1, hid])
  obtain ⟨l1, l2, hsplit, hl1, hrep⟩ := find?_decomp hfind
  refine ⟨applyUpdate upd E, { db with events := l1 ++ applyUpdate upd E :: l2 },
    ?_, rfl, rfl, rfl, ?_, ?_, ?_, ?_, ?_, ?_, ?_, ?_,
    rfl, rfl, rfl, rfl, rfl, rfl, rfl, l1, l2, hsplit, rfl⟩
  · simp only [update_event, hfind, hrep (applyUpdate upd)]
  · intro h
    simp [applyUpdate, h]
  · intro t h
    simp [applyUpdate, h]
  · intro h
    simp [applyUpdate, h]
  · intro d h
    simp [applyUpdate, h]
  · intro h
    simp [applyUpdate, h]
  · intro d h
    simp [applyUpdate, h]
  · intro h
    simp [applyUpdate, h]
  · intro v h
    simp [applyUpdate, h]

/-- Witness for C8: updating only the title of event 1 leaves the other
fields, the owner and the rest of the database intact. -/
theorem update_event_partial_frame_witness :
    ∃ e2 db2, update_event ⟨[⟨1, "alice", "alice@x.com", "h1"⟩],
        [⟨1, "Party", none, 0, "Home", 1⟩], [], [], 2, 2, 1, 1⟩
        ⟨1, "alice", "alice@x.com", "h1"⟩ 1 ⟨some "Gala", none, none, none⟩ =
        (Except.ok e2, db2) ∧
      e2 = applyUpdate ⟨some "Gala", none, none, none⟩ ⟨1, "Party", none, 0, "Home", 1⟩ ∧
      e2.id = (⟨1, "Party", none, 0, "Home", 1⟩ : Event).id ∧
      e2.owner_id = (⟨1, "Party", none, 0, "Home", 1⟩ : Event).owner_id ∧
      ((⟨some "Gala", none, none, none⟩ : EventUpdate).title = none →
        e2.title = (⟨1, "Party", none, 0, "Home", 1⟩ : Event).title) ∧
      (∀ t, (⟨some "Gala", none, none, none⟩ : EventUpdate).title = some t → e2.title = t) ∧
      ((⟨some "Gala", none, none, none⟩ : EventUpdate).description = none →
        e2.description = (⟨1, "Party", none, 0, "Home", 1⟩ : Event).description) ∧
      (∀ d, (⟨some "Gala", none, none, none⟩ : EventUpdate).description = some d →
        e2.description = d) ∧
      ((⟨some "Gala", none, none, none⟩ : EventUpdate).date = none →
        e2.date = (⟨1, "Party", none, 0, "Home", 1⟩ : Event).date) ∧
      (∀ d, (⟨some "Gala", none, none, none⟩ : EventUpdate).date = some d → e2.date = d) ∧
      ((⟨some "Gala", none, none, none⟩ : EventUpdate).location = none →
        e2.location = (⟨1, "Party", none, 0, "Home", 1⟩ : Event).location) ∧
      (∀ v, (⟨some "Gala", none, none, none⟩ : EventUpdate).location = some v →
        e2.location = v) ∧
      db2.users = [⟨1, "alice", "alice@x.com", "h1"⟩] ∧ db2.guests = [] ∧ db2.rsvps = [] ∧
      db2.next_user_id = 2 ∧ db2.next_event_id = 2 ∧
      db2.next_guest_id = 1 ∧ db2.next_rsvp_id = 1 ∧
      ∃ l1 l2, [(⟨1, "Party", none, 0, "Home", 1⟩ : Event)] = l1 ++ ⟨1, "Party", none, 0, "Home", 1⟩ :: l2 ∧
        db2.events = l1 ++ e2 :: l2 :=
  update_event_partial_frame ⟨[⟨1, "alice", "alice@x.com", "h1"⟩],
      [⟨1, "Party", none, 0, "Home", 1⟩], [], [], 2, 2, 1, 1⟩
    ⟨1, "alice", "alice@x.com", "h1"⟩ 1 ⟨some "Gala", none, none, none⟩
    ⟨1, "Party", none, 0, "Home", 1⟩ (by decide) (by decide) rfl rfl

/-- No guest row for the pair iff the per-email lookup finds none. -/
theorem countGuests_eq_zero_iff (db : Db) (eid : Nat) (em : String) :
    countGuests db eid em = 0 ↔
      db.guests.find? (fun g => g.event_id == eid && g.email == em) = none := by
  rw [countGuests, List.length_eq_zero, List.filter_eq_nil_iff, List.find?_eq_none]

/-- The invite loop checks each email against the rows persisted before
the request only (`autoflush=False`), so from a given persisted state it
stages one guest per occurrence of an email that had no persisted row,
and none for an email that had one. -/
theorem inviteStep_foldl_count (db : Db) (user : User) (eid : Nat) (em : String) :
    ∀ (emails : List String) (pending : List Guest) (n : Nat),
      (((emails.foldl (inviteStep db user eid) (pending, n)).1).filter
          (fun g => g.event_id == eid && g.email == em)).length =
        (pending.filter (fun g => g.event_id == eid && g.email == em)).length +
        (if db.guests.find? (fun g => g.event_id == eid && g.email == em) = none
          then emails.count em else 0) := by
  intro emails
  induction emails with
  | nil =>
    intro pending n
    simp
  | cons e rest ih =>
    intro pending n
    rw [List.foldl_cons]
    by_cases he : e = em
    · subst he
      cases hl : db.guests.find? (fun g => g.event_id == eid && g.email == e) with
      | some g0 =>
        rw [show inviteStep db user eid (pending, n) e = (pending, n) by
          simp [inviteStep, hl]]
        rw [ih pending n]
        simp [hl]
      | none =>
        rw [show inviteStep db user eid (pending, n) e =
            (pending ++ [⟨n, eid, localPart e, e, user.id, false⟩], n + 1) by
          simp [inviteStep, hl]]
        rw [ih _ _]
        rw [List.filter_append]
        simp [hl, List.count_cons]
        omega
    · have hbe : (e == em) = false := by simp [he]
      cases hl : db.guests.find? (fun g => g.event_id == eid && g.email == e) with
      | some g0 =>
        rw [show inviteStep db user eid (pending, n) e = (pending, n) by
          simp [inviteStep, hl]]
        rw [ih pending n]
        simp [List.count_cons, hbe]
      | none =>
        rw [show inviteStep db user eid (pending, n) e =
            (pending ++ [⟨n, eid, localPart e, e, user.id, false⟩], n + 1) by
          simp [inviteStep, hl]]
        rw [ih _ _]
        rw [List.filter_append]
        simp [List.count_cons, hbe]

/-- Every guest staged by the invite loop belongs to the requested event,
carries one of the requested emails, and is named by the local part of
its email. -/
theorem inviteStep_foldl_mem (db : Db) (user : User) (eid : Nat) :
    ∀ (emails : List String) (pending : List Guest) (n : Nat),
      ∀ g ∈ (emails.foldl (inviteStep db user eid) (pending, n)).1,
        g ∈ pending ∨ (g.event_id = eid ∧ g.email ∈ emails ∧ g.name = localPart g.email) := by
  intro emails
  induction emails with
  | nil =>
    intro pending n g hg
    exact Or.inl hg
  | cons e rest ih =>
    intro pending n g hg
    rw [List.foldl_cons] at hg
    cases hl : db.guests.find? (fun g => g.event_id == eid && g.email == e) with
    | some g0 =>
      rw [show inviteStep db user eid (pending, n) e = (pending, n) by
        simp [inviteStep, hl]] at hg
      rcases ih pending n g hg with h | ⟨h1, h2, h3⟩
      · exact Or.inl h
      · exact Or.inr ⟨h1, List.mem_cons_of_mem e h2, h3⟩
    | none =>
      rw [show inviteStep db user eid (pending, n) e =
          (pending ++ [⟨n, eid, localPart e, e, user.id, false⟩], n + 1) by
        simp [inviteStep, hl]] at hg
      rcases ih _ _ g hg with h | ⟨h1, h2, h3⟩
      · rcases List.mem_append.mp h with h | h
        · exact Or.inl h
        · rcases List.mem_singleton.mp h with rfl
          exact Or.inr ⟨rfl, List.mem_cons_self e rest, rfl⟩
      · exact Or.inr ⟨h1, List.mem_cons_of_mem e h2, h3⟩

/-- A batch invite never changes the events table. -/
theorem invite_guests_events (db : Db) (u : User) (eid : Nat) (emails : List String) :
    (invite_guests db u eid emails).2.events = db.events := by
  cases hf : db.events.find? (ownedEvent eid u) <;> simp [invite_guests, hf]

/-- After a batch invite, every guest row is either pre-existing or named
by the local part of its email. -/
theorem invite_guests_name (db : Db) (u : User) (eid : Nat) (emails : List String) :
    ∀ g ∈ (invite_guests db u eid emails).2.guests,
      g ∈ db.guests ∨ g.name = localPart g.email := by
  intro g hg
  cases hf : db.events.find? (ownedEvent eid u) with
  | none =>
    simp only [invite_guests, hf] at hg
    exact Or.inl hg
  | some E =>
    simp only [invite_guests, hf] at hg
    rcases List.mem_append.mp hg with h | h
    · exact Or.inl h
    · rcases inviteStep_foldl_mem db u eid emails [] db.next_guest_id g h with h2 | ⟨_, _, h3⟩
      · simp at h2
      · exact Or.inr h3

/-- Effect of one batch-invite call on the number of guest rows for an
`(event, email)` pair: unchanged unless the call targets that event, is
made by its owner, and no row existed — in which case one row per
occurrence of the email in the request body is added. -/
theorem invite_call_countGuests (db : Db) (u : User) (eid2 : Nat) (emails : List String)
    (eid : Nat) (em : String) :
    countGuests (invite_guests db u eid2 emails).2 eid em =
      countGuests db eid em +
      (if (db.events.find? (ownedEvent eid2 u)).isSome ∧ eid2 = eid ∧
          countGuests db eid em = 0
        then emails.count em else 0) := by
  cases hf : db.events.find? (ownedEvent eid2 u) with
  | none =>
    simp [invite_guests, hf]
  | some E =>
    have hdbg : (invite_guests db u eid2 emails).2.guests =
        db.guests ++ (emails.foldl (inviteStep db u eid2) ([], db.next_guest_id)).1 := by
      simp [invite_guests, hf]
    have hcnt : countGuests (invite_guests db u eid2 emails).2 eid em =
        countGuests db eid em +
        ((emails.foldl (inviteStep db u eid2) ([], db.next_guest_id)).1.filter
          (fun g => g.event_id == eid && g.email == em)).length := by
      rw [countGuests, hdbg, List.filter_append, List.length_append]
      rfl
    by_cases hee : eid2 = eid
    · subst hee
      rw [hcnt, inviteStep_foldl_count]
      simp only [List.filter_nil, List.length_nil, Nat.zero_add]
      by_cases h0 : countGuests db eid2 em = 0
      · rw [if_pos ((countGuests_eq_zero_iff db eid2 em).mp h0)]
        simp [h0]
      · rw [if_neg (fun hc => h0 ((countGuests_eq_zero_iff db eid2 em).mpr hc))]
        simp [h0]
    · have hnil : ((emails.foldl (inviteStep db u eid2) ([], db.next_guest_id)).1.filter
          (fun g => g.event_id == eid && g.email == em)) = [] := by
        rw [List.filter_eq_nil_iff]
        intro g hg
        rcases inviteStep_foldl_mem db u eid2 emails [] db.next_guest_id g hg with h | ⟨h1, _, _⟩
        · simp at h
        · simp [h1, hee]
      rw [hcnt, hnil]
      simp [hee]

/-- C9: within a single batch-invite call whose body repeats an email not
yet persisted for the event, a separate guest row is created for each
occurrence, because the duplicate check consults only rows persisted
before the request (the session does not autoflush pending adds). -/
theorem invite_row_per_occurrence (db : Db) (u : User) (eid : Nat) (em : String)
    (emails : List String)
    (hok : ∃ E ∈ db.events, E.id = eid ∧ E.owner_id = u.id)
    (h0 : countGuests db eid em = 0) :
    countGuests (invite_guests db u eid emails).2 eid em = emails.count em := by
  have hs : (db.events.find? (ownedEvent eid u)).isSome = true := by
    obtain ⟨E, hE, h1, h2⟩ := hok
    exact List.find?_isSome.mpr ⟨E, hE, by simp [ownedEvent, h1, h2]⟩
  rw [invite_call_countGuests, h0, if_pos ⟨hs, rfl, rfl⟩, Nat.zero_add]

/-- C4 (amended): restricted to invite calls whose bodies contain the
email at most once, idempotency holds: starting from at most one guest
row for the pair, any sequence of invite calls leaves at most one row,
and exactly one as soon as a row existed or some call by the event's
owner contained the email; duplicates are skipped silently (the count
never exceeds one), and every newly added guest is named by the local
part of its email.  The unamended claim fails when one call repeats the
email, see the counterexample. -/
theorem invite_idempotent_per_email (db : Db) (eid : Nat) (em : String)
    (calls : List InviteCall)
    (hstart : countGuests db eid em ≤ 1)
    (hdup : ∀ c ∈ calls, c.guest_emails.count em ≤ 1) :
    countGuests (runInvites db calls) eid em ≤ 1
    ∧ ((countGuests db eid em = 1 ∨ ∃ c ∈ calls, c.event_id = eid ∧ em ∈ c.guest_emails ∧
          ∃ E ∈ db.events, E.id = eid ∧ E.owner_id = c.user.id) →
        countGuests (runInvites db calls) eid em = 1)
    ∧ (∀ g ∈ (runInvites db calls).guests, g ∉ db.guests → g.name = localPart g.email) := by
  induction calls generalizing db hstart with
  | nil =>
    refine ⟨hstart, ?_, ?_⟩
    · rintro (h1 | ⟨c, hc, _⟩)
      · exact h1
      · simp at hc
    · intro g hg hng
      exact absurd hg hng
  | cons c cs ih =>
    have hrun : runInvites db (c :: cs) =
        runInvites (invite_guests db c.user c.event_id c.guest_emails).2 cs := rfl
    rw [hrun]
    have hceq := invite_call_countGuests db c.user c.event_id c.guest_emails eid em
    have hstart1 : countGuests (invite_guests db c.user c.event_id c.guest_emails).2 eid em ≤ 1 := by
      rw [hceq]
      split_ifs with h
      · rw [h.2.2]
        have := hdup c (List.mem_cons_self c cs)
        omega
      · omega
    obtain ⟨ihA, ihB, ihC⟩ := ih _ hstart1 (fun c2 hc2 => hdup c2 (List.mem_cons_of_mem c hc2))
    refine ⟨ihA, ?_, ?_⟩
    · rintro (h1 | ⟨c2, hc2, hce, hcm, E, hE, hid2, hown⟩)
      · apply ihB
        left
        rw [hceq, h1]
        simp
      · rcases List.mem_cons.mp hc2 with heq | hc2
        · subst heq
          apply ihB
          left
          have hs : (db.events.find? (ownedEvent c2.event_id c2.user)).isSome = true :=
            List.find?_isSome.mpr ⟨E, hE, by simp [ownedEvent, hid2, hce, hown]⟩
          by_cases h0 : countGuests db eid em = 0
          · rw [hceq, h0, if_pos ⟨hs, hce, rfl⟩, Nat.zero_add]
            have hge1 : 0 < c2.guest_emails.count em := List.count_pos_iff.mpr hcm
            have hle := hdup c2 (List.mem_cons_self c2 cs)
            omega
          · have h1 : countGuests db eid em = 1 := by omega
            rw [hceq, h1]
            simp
        · apply ihB
          right
          refine ⟨c2, hc2, hce, hcm, E, ?_, hid2, hown⟩
          rw [invite_guests_events]
          exact hE
    · intro g hg hng
      by_cases hgdb1 : g ∈ (invite_guests db c.user c.event_id c.guest_emails).2.guests
      · rcases invite_guests_name db c.user c.event_id c.guest_emails g hgdb1 with h | h
        · exact absurd h hng
        · exact h
      · exact ihC g hg hgdb1

/-- C5 (amended): the batch-invite response lists exactly the guests
newly created by this call: the guests table is extended by precisely
the returned rows, each returned row belongs to the event and to a
requested email, every requested email with no pre-existing row is
represented, and no requested email that already had a guest row is
represented — pre-existing guests are omitted from the response. -/
theorem invite_response_newly_created (db : Db) (u : User) (eid : Nat)
    (emails : List String) (gs : List Guest) (db2 : Db)
    (hok : invite_guests db u eid emails = (Except.ok gs, db2)) :
    db2.guests = db.guests ++ gs
    ∧ (∀ g ∈ gs, g.event_id = eid ∧ g.email ∈ emails ∧ g.name = localPart g.email)
    ∧ (∀ em ∈ emails, countGuests db eid em = 0 → ∃ g ∈ gs, g.email = em)
    ∧ (∀ em, 1 ≤ countGuests db eid em → ∀ g ∈ gs, g.email ≠ em) := by
  cases hf : db.events.find? (ownedEvent eid u) with
  | none => simp [invite_guests, hf] at hok
  | some E =>
    simp only [invite_guests, hf] at hok
    injection hok with h1 h2
    injection h1 with h1
    have hgs : (emails.foldl (inviteStep db u eid) ([], db.next_guest_id)).1 = gs := h1
    have hdb2 : db2.guests = db.guests ++ gs := by
      rw [← h2, ← hgs]
    refine ⟨hdb2, ?_, ?_, ?_⟩
    · intro g hg
      rcases inviteStep_foldl_mem db u eid emails [] db.next_guest_id g (hgs ▸ hg) with h | hp
      · simp at h
      · exact hp
    · intro em hem h0
      have hcnt := inviteStep_foldl_count db u eid em emails [] db.next_guest_id
      rw [hgs, if_pos ((countGuests_eq_zero_iff db eid em).mp h0)] at hcnt
      have hpos : 0 < (gs.filter (fun g => g.event_id == eid && g.email == em)).length := by
        rw [hcnt]
        simp only [List.filter_nil, List.length_nil, Nat.zero_add]
        exact List.count_pos_iff.mpr hem
      obtain ⟨g, hgmem⟩ := List.exists_mem_of_length_pos hpos
      have hmf := List.mem_filter.mp hgmem
      refine ⟨g, hmf.1, ?_⟩
      have := hmf.2
      simp only [Bool.and_eq_true, beq_iff_eq] at this
      exact this.2
    · intro em h1 g hg hem
      have hcnt := inviteStep_foldl_count db u eid em emails [] db.next_guest_id
      have hsome : ¬ db.guests.find? (fun g => g.event_id == eid && g.email == em) = none := by
        intro hn
        have := (countGuests_eq_zero_iff db eid em).mpr hn
        omega
      rw [hgs, if_neg hsome] at hcnt
      have hnil : gs.filter (fun g => g.event_id == eid && g.email == em) = [] := by
        apply List.length_eq_zero.mp
        simpa using hcnt
      have hall := List.filter_eq_nil_iff.mp hnil g hg
      rcases inviteStep_foldl_mem db u eid emails [] db.next_guest_id g (hgs ▸ hg) with h | ⟨hev, _, _⟩
      · simp at h
      · exact hall (by simp [hev, hem])

/-- Witness for C9: inviting `bob@x.com` twice in one call to an event
with no guests creates two guest rows for the pair. -/
theorem invite_row_per_occurrence_witness :
    countGuests (invite_guests ⟨[⟨1, "alice", "alice@x.com", "h1"⟩],
        [⟨1, "Party", none, 0, "Home", 1⟩], [], [], 2, 2, 1, 1⟩
      ⟨1, "alice", "alice@x.com", "h1"⟩ 1 ["bob@x.com", "bob@x.com"]).2 1 "bob@x.com" = 2 :=
  invite_row_per_occurrence ⟨[⟨1, "alice", "alice@x.com", "h1"⟩],
      [⟨1, "Party", none, 0, "Home", 1⟩], [], [], 2, 2, 1, 1⟩
    ⟨1, "alice", "alice@x.com", "h1"⟩ 1 "bob@x.com" ["bob@x.com", "bob@x.com"]
    ⟨⟨1, "Party", none, 0, "Home", 1⟩, by decide, rfl, rfl⟩ (by decide)

/-- Counterexample for C4 as stated: a sequence consisting of one invite
call whose body lists `bob@x.com` twice leaves two guest rows for the
pair, not exactly one. -/
theorem invite_idempotent_counterexample :
    countGuests (runInvites ⟨[⟨1, "alice", "alice@x.com", "h1"⟩],
        [⟨1, "Party", none, 0, "Home", 1⟩], [], [], 2, 2, 1, 1⟩
      [⟨⟨1, "alice", "alice@x.com", "h1"⟩, 1, ["bob@x.com", "bob@x.com"]⟩]) 1 "bob@x.com" = 2 := by
  decide

/-- Witness for C4: two separate owner calls each inviting `bob@x.com`
once leave exactly one guest row for the pair. -/
theorem invite_idempotent_per_email_witness :
    countGuests (runInvites ⟨[⟨1, "alice", "alice@x.com", "h1"⟩],
        [⟨1, "Party", none, 0, "Home", 1⟩], [], [], 2, 2, 1, 1⟩
      [⟨⟨1, "alice", "alice@x.com", "h1"⟩, 1, ["bob@x.com"]⟩,
       ⟨⟨1, "alice", "alice@x.com", "h1"⟩, 1, ["bob@x.com"]⟩]) 1 "bob@x.com" ≤ 1
    ∧ ((countGuests ⟨[⟨1, "alice", "alice@x.com", "h1"⟩],
          [⟨1, "Party", none, 0, "Home", 1⟩], [], [], 2, 2, 1, 1⟩ 1 "bob@x.com" = 1 ∨
        ∃ c ∈ [(⟨⟨1, "alice", "alice@x.com", "h1"⟩, 1, ["bob@x.com"]⟩ : InviteCall),
               ⟨⟨1, "alice", "alice@x.com", "h1"⟩, 1, ["bob@x.com"]⟩],
          c.event_id = 1 ∧ "bob@x.com" ∈ c.guest_emails ∧
          ∃ E ∈ (⟨[⟨1, "alice", "alice@x.com", "h1"⟩],
              [⟨1, "Party", none, 0, "Home", 1⟩], [], [], 2, 2, 1, 1⟩ : Db).events,
            E.id = 1 ∧ E.owner_id = c.user.id) →
        countGuests (runInvites ⟨[⟨1, "alice", "alice@x.com", "h1"⟩],
          [⟨1, "Party", none, 0, "Home", 1⟩], [], [], 2, 2, 1, 1⟩
        [⟨⟨1, "alice", "alice@x.com", "h1"⟩, 1, ["bob@x.com"]⟩,
         ⟨⟨1, "alice", "alice@x.com", "h1"⟩, 1, ["bob@x.com"]⟩]) 1 "bob@x.com" = 1)
    ∧ (∀ g ∈ (runInvites ⟨[⟨1, "alice", "alice@x.com", "h1"⟩],
          [⟨1, "Party", none, 0, "Home", 1⟩], [], [], 2, 2, 1, 1⟩
        [⟨⟨1, "alice", "alice@x.com", "h1"⟩, 1, ["bob@x.com"]⟩,
         ⟨⟨1, "alice", "alice@x.com", "h1"⟩, 1, ["bob@x.com"]⟩]).guests,
        g ∉ (⟨[⟨1, "alice", "alice@x.com", "h1"⟩],
          [⟨1, "Party", none, 0, "Home", 1⟩], [], [], 2, 2, 1, 1⟩ : Db).guests →
        g.name = localPart g.email) :=
  invite_idempotent_per_email ⟨[⟨1, "alice", "alice@x.com", "h1"⟩],
      [⟨1, "Party", none, 0, "Home", 1⟩], [], [], 2, 2, 1, 1⟩ 1 "bob@x.com"
    [⟨⟨1, "alice", "alice@x.com", "h1"⟩, 1, ["bob@x.com"]⟩,
     ⟨⟨1, "alice", "alice@x.com", "h1"⟩, 1, ["bob@x.com"]⟩] (by decide) (by decide)

/-- Counterexample for C5 as stated: inviting `bob@x.com` when a guest
row for that email already exists returns the empty list — the response
contains no record for that email. -/
theorem invite_response_counterexample :
    (invite_guests ⟨[⟨1, "alice", "alice@x.com", "h1"⟩], [⟨1, "Party", none, 0, "Home", 1⟩],
        [⟨1, 1, "bob", "bob@x.com", 1, false⟩], [], 2, 2, 2, 1⟩
      ⟨1, "alice", "alice@x.com", "h1"⟩ 1 ["bob@x.com"]).1 = Except.ok ([] : List Guest)
    ∧ (∃ g ∈ (⟨[⟨1, "alice", "alice@x.com", "h1"⟩], [⟨1, "Party", none, 0, "Home", 1⟩],
        [⟨1, 1, "bob", "bob@x.com", 1, false⟩], [], 2, 2, 2, 1⟩ : Db).guests,
      g.event_id = 1 ∧ g.email = "bob@x.com") :=
  ⟨rfl, ⟨⟨1, 1, "bob", "bob@x.com", 1, false⟩, by decide, rfl, rfl⟩⟩

/-- Witness for C5: inviting `bob@x.com` to an event with no guests
returns exactly the newly created guest row. -/
theorem invite_response_newly_created_witness :
    (⟨[⟨1, "alice", "alice@x.com", "h1"⟩], [⟨1, "Party", none, 0, "Home", 1⟩],
        [⟨1, 1, "bob", "bob@x.com", 1, false⟩], [], 2, 2, 2, 1⟩ : Db).guests =
      (⟨[⟨1, "alice", "alice@x.com", "h1"⟩], [⟨1, "Party", none, 0, "Home", 1⟩],
        [], [], 2, 2, 1, 1⟩ : Db).guests ++ [⟨1, 1, "bob", "bob@x.com", 1, false⟩]
    ∧ (∀ g ∈ [(⟨1, 1, "bob", "bob@x.com", 1, false⟩ : Guest)],
        g.event_id = 1 ∧ g.email ∈ ["bob@x.com"] ∧ g.name = localPart g.email)
    ∧ (∀ em ∈ ["bob@x.com"],
        countGuests ⟨[⟨1, "alice", "alice@x.com", "h1"⟩], [⟨1, "Party", none, 0, "Home", 1⟩],
          [], [], 2, 2, 1, 1⟩ 1 em = 0 →
        ∃ g ∈ [(⟨1, 1, "bob", "bob@x.com", 1, false⟩ : Guest)], g.email = em)
    ∧ (∀ em, 1 ≤ countGuests ⟨[⟨1, "alice", "alice@x.com", "h1"⟩],
          [⟨1, "Party", none, 0, "Home", 1⟩], [], [], 2, 2, 1, 1⟩ 1 em →
        ∀ g ∈ [(⟨1, 1, "bob", "bob@x.com", 1, false⟩ : Guest)], g.email ≠ em) :=
  invite_response_newly_created ⟨[⟨1, "alice", "alice@x.com", "h1"⟩],
      [⟨1, "Party", none, 0, "Home", 1⟩], [], [], 2, 2, 1, 1⟩
    ⟨1, "alice", "alice@x.com", "h1"⟩ 1 ["bob@x.com"] [⟨1, 1, "bob", "bob@x.com", 1, false⟩]
    ⟨[⟨1, "alice", "alice@x.com", "h1"⟩], [⟨1, "Party", none, 0, "Home", 1⟩],
      [⟨1, 1, "bob", "bob@x.com", 1, false⟩], [], 2, 2, 2, 1⟩ (by rfl)
